import Mathlib

/-!
Shallow embedding of the hanafuda DOL-patching linker driver
(src/ELF/HanafudaDriver.cpp) for verification of its specification.

Byte buffers are modelled as `List Nat` (each element a byte value < 256,
asserted where it matters).  Out-of-bounds reads return 0 via `List.getD`;
the C++ source performs the corresponding reads without bounds checks, so
the embedding notes at each such place what the source actually does.
Machine integers (`uint32_t`, `uint64_t`) are modelled as `Nat` with
explicit `% 2^32` / `% 2^64` where overflow can occur.
-/

set_option maxRecDepth 2048

namespace Hanafuda

/-- Big-endian 32-bit read at byte offset `off`.  Models reading a
`uint32_t` field of the packed big-endian DOL header followed by
`swapBig()` (HanafudaDriver.cpp lines 101-120): the result is the
big-endian value of the four bytes. -/
def readU32 (buf : List Nat) (off : Nat) : Nat :=
  buf.getD off 0 * 0x1000000 + buf.getD (off + 1) 0 * 0x10000 +
    buf.getD (off + 2) 0 * 0x100 + buf.getD (off + 3) 0

/-- Big-endian serialization of a 32-bit value into four bytes
(the `swapBig()` before `memmove` in `writeTo`). -/
def writeU32 (v : Nat) : List Nat :=
  [v / 0x1000000 % 256, v / 0x10000 % 256, v / 0x100 % 256, v % 256]

/-- `DOLFile::Section` (HanafudaDriver.cpp lines 84-88): zero-initialized
file offset, load address and length. -/
structure DolSection where
  offset : Nat := 0
  addr : Nat := 0
  length : Nat := 0
deriving DecidableEq, Repr

instance : Inhabited DolSection := ⟨{}⟩

/-- In-memory `DOLFile` state populated by the constructor
(HanafudaDriver.cpp lines 122-130): 7 text slots, 11 data slots, the BSS
region, entry point and the Dolphin-layout flag.  The scan-derived fields
(StackBase, SdataBase, Sdata2Base, call-site index) are modelled
separately by `ScanState` below; the C++ constructor computes them after
the fields here and they do not feed back into these fields. -/
structure DOLFile where
  texts : List DolSection
  datas : List DolSection
  bssAddr : Nat
  bssSize : Nat
  entryPoint : Nat
  dolphinSections : Bool
deriving DecidableEq, Repr

/-- One iteration of the slot-populating loops in the `DOLFile`
constructor (lines 141-158): a slot is populated only when its
file-offset header field is non-zero, otherwise it keeps its
zero-initialized value. -/
def readSlot (buf : List Nat) (offOff loadOff sizeOff : Nat) : DolSection :=
  if readU32 buf offOff ≠ 0 then
    { offset := readU32 buf offOff
      addr := readU32 buf loadOff
      length := readU32 buf sizeOff }
  else {}

/-- The `for (i = 0; i < 7; ++i)` text loop of the constructor: returns
the populated slots together with the final value of the loop variable
`i`, which is declared outside the loop (line 140) and survives it. -/
def textLoop (buf : List Nat) : List DolSection × Nat :=
  (List.range 7).foldl
    (fun acc _ =>
      (acc.1 ++ [readSlot buf (4 * acc.2) (0x48 + 4 * acc.2) (0x90 + 4 * acc.2)],
       acc.2 + 1))
    ([], 0)

/-- The `for (j = 0; j < 11; ++j)` data loop of the constructor, with the
final value of `j` (line 150). -/
def dataLoop (buf : List Nat) : List DolSection × Nat :=
  (List.range 11).foldl
    (fun acc _ =>
      (acc.1 ++ [readSlot buf (0x1C + 4 * acc.2) (0x64 + 4 * acc.2) (0xAC + 4 * acc.2)],
       acc.2 + 1))
    ([], 0)

/-- `DOLFile::DOLFile` (lines 136-168), header/slot part.  The source
dereferences the buffer as a 228-byte `Header` with no length check, so
this function is total: a buffer shorter than the header is read with the
same unchecked accesses (out-of-bounds bytes modelled as 0) and no error
is reported.  `DolphinSections` is assigned from `i >= 2 && j >= 6` where
`i` and `j` are the final loop-variable values (line 160). -/
def construct (buf : List Nat) : DOLFile :=
  let tl := textLoop buf
  let dl := dataLoop buf
  { texts := tl.1
    datas := dl.1
    bssAddr := readU32 buf 0xD8
    bssSize := readU32 buf 0xDC
    entryPoint := readU32 buf 0xE0
    dolphinSections := decide (2 ≤ tl.2 ∧ 6 ≤ dl.2) }

/-- `DOLFile::getTextSectionCount` (lines 170-175): index of the first
unoccupied text slot, or 7. -/
def getTextSectionCount (d : DOLFile) : Nat :=
  ((d.texts.findIdx? (fun s => s.offset = 0)).getD 7)

/-- `DOLFile::getDataSectionCount` (lines 177-182). -/
def getDataSectionCount (d : DOLFile) : Nat :=
  ((d.datas.findIdx? (fun s => s.offset = 0)).getD 11)

/-- `DOLFile::getUnallocatedFileOffset` (lines 203-214): max of
`offset + length` over all slots, rounded up to 32 bytes
(`(Offset + 31) & ~31`, a `uint32_t` computation). -/
def getUnallocatedFileOffset (d : DOLFile) : Nat :=
  let m := (d.texts ++ d.datas).foldl (fun acc s => max acc (s.offset + s.length)) 0
  (m + 31) % 2 ^ 32 / 32 * 32

/-- `DOLFile::getUnallocatedAddressOffset` (lines 216-227). -/
def getUnallocatedAddressOffset (d : DOLFile) : Nat :=
  let m := (d.texts ++ d.datas).foldl (fun acc s => max acc (s.addr + s.length)) 0
  (m + 31) % 2 ^ 32 / 32 * 32

/-- `StringRef` slice `MB.getBuffer().substr(sec.Offset, sec.Length)`
followed by a `memmove` of `sec.Length` bytes (lines 229-241, 363, 373):
byte `k` of the copied block is the buffer byte at `offset + k`
(out-of-bounds source bytes modelled as 0). -/
def sectionData (buf : List Nat) (sec : DolSection) : List Nat :=
  (List.range sec.length).map (fun k => buf.getD (sec.offset + k) 0)

/-- A `memmove(dst + off, data, data.length)` into an output buffer
modelled as a function from byte position to byte value. -/
def writeBytes (f : Nat → Nat) (off : Nat) (data : List Nat) : Nat → Nat :=
  fun pos => if off ≤ pos ∧ pos < off + data.length then data.getD (pos - off) 0 else f pos

/-- Header field: the file offset stamped for a slot by `writeTo`
(zero when the slot is skipped by `if (!sec.Offset) continue;`). -/
def condOffset (s : DolSection) : Nat := if s.offset ≠ 0 then s.offset else 0

/-- Header field: the load address stamped for a slot by `writeTo`
(the zero-initialized `SwappedHead` value when the slot is skipped). -/
def condAddr (s : DolSection) : Nat := if s.offset ≠ 0 then s.addr else 0

/-- Header field: the size stamped for a slot by `writeTo`. -/
def condLength (s : DolSection) : Nat := if s.offset ≠ 0 then s.length else 0

/-- The 57 `uint32_t` fields of the `Header` struct (lines 90-99) in
declaration order, as stamped by `writeTo`. -/
def headerFields (d : DOLFile) : List Nat :=
  d.texts.map condOffset ++ d.datas.map condOffset ++
    d.texts.map condAddr ++ d.datas.map condAddr ++
    d.texts.map condLength ++ d.datas.map condLength ++
    [d.bssAddr, d.bssSize, d.entryPoint]

/-- Big-endian serialization of a list of 32-bit fields. -/
def quadJoin (fields : List Nat) : List Nat := (fields.map writeU32).flatten

/-- The `sizeof(Header) = 228` bytes stamped at offset 0 by the final
`memmove(BufData, &SwappedHead, sizeof(SwappedHead))` of `writeTo`
(line 377).  Note the C++ `Header` struct carries no padding, so only
228 of the 256 DOL header bytes are stamped. -/
def headerBytes (d : DOLFile) : List Nat := quadJoin (headerFields d)

/-- One iteration of the slot-copying loops of `writeTo` (lines 356-374):
an occupied slot has its body copied to its own file offset, an
unoccupied one is skipped (`if (!sec.Offset) continue;`). -/
def bodyWrite (buf : List Nat) (f : Nat → Nat) (sec : DolSection) : Nat → Nat :=
  if sec.offset ≠ 0 then writeBytes f sec.offset (sectionData buf sec) else f

/-- `DOLFile::writeTo` (lines 350-378) over a pre-zeroed output region
(modelled as the constantly-zero function): copy each occupied text slot
body, then each occupied data slot body, then stamp the swapped header at
offset 0.  `buf` is the original buffer `MB` captured at construction. -/
def writeTo (buf : List Nat) (d : DOLFile) : Nat → Nat :=
  writeBytes (d.datas.foldl (bodyWrite buf) (d.texts.foldl (bodyWrite buf) (fun _ => 0)))
    0 (headerBytes d)

theorem textLoop_eq (buf : List Nat) :
    textLoop buf =
      ([readSlot buf 0 0x48 0x90, readSlot buf 4 0x4C 0x94, readSlot buf 8 0x50 0x98,
        readSlot buf 12 0x54 0x9C, readSlot buf 16 0x58 0xA0, readSlot buf 20 0x5C 0xA4,
        readSlot buf 24 0x60 0xA8], 7) := rfl

theorem dataLoop_eq (buf : List Nat) :
    dataLoop buf =
      ([readSlot buf 0x1C 0x64 0xAC, readSlot buf 0x20 0x68 0xB0, readSlot buf 0x24 0x6C 0xB4,
        readSlot buf 0x28 0x70 0xB8, readSlot buf 0x2C 0x74 0xBC, readSlot buf 0x30 0x78 0xC0,
        readSlot buf 0x34 0x7C 0xC4, readSlot buf 0x38 0x80 0xC8, readSlot buf 0x3C 0x84 0xCC,
        readSlot buf 0x40 0x88 0xD0, readSlot buf 0x44 0x8C 0xD4], 11) := rfl

/-- A DOL buffer with exactly one occupied text slot (slot 0 at file
offset 0x100, load address 0x80003100, size 0x40) and no occupied data
slots — the failing input of claim C3. -/
def c3buf : List Nat :=
  [0, 0, 1, 0] ++ List.replicate 68 0 ++ [0x80, 0, 0x31, 0] ++
    List.replicate 68 0 ++ [0, 0, 0, 0x40] ++ List.replicate 108 0

/-- C3: the claim states `dolphin_layout` is true iff at least 2 text and
at least 6 data slots are occupied, and in particular false for an input
with one occupied text slot and no occupied data slots.  The code instead
tests the final values of the populate-loop indices (`i >= 2 && j >= 6`
at line 160), which are always 7 and 11: the flag is true for every
input, including the one-text-slot/no-data-slot input `c3buf`. -/
theorem c3_dolphin_flag_always_true :
    (∀ buf : List Nat, (construct buf).dolphinSections = true) ∧
    getTextSectionCount (construct c3buf) = 1 ∧
    getDataSectionCount (construct c3buf) = 0 ∧
    (construct c3buf).dolphinSections = true :=
  ⟨fun _ => rfl, by decide, by decide, by decide⟩

/-- C4: the claim states that a buffer shorter than the 256-byte header
makes construction fail without reading past the end.  The constructor
(line 137) dereferences the buffer as a `Header` with no length check and
has no failure path: a 16-byte buffer is decoded as if it were a full
zero header (the out-of-bounds header bytes are simply read past the end
of the allocation; modelled here as reading 0), producing an ordinary
image — with `dolphinSections` even set — instead of an error. -/
theorem c4_short_buffer_reads_header_anyway :
    (List.replicate 16 0).length < 256 ∧
    construct (List.replicate 16 0) =
      { texts := List.replicate 7 {}, datas := List.replicate 11 {},
        bssAddr := 0, bssSize := 0, entryPoint := 0, dolphinSections := true } :=
  ⟨by decide, by decide⟩


theorem getD_lt_256 (buf : List Nat) (hb : ∀ b ∈ buf, b < 256) (o : Nat) :
    buf.getD o 0 < 256 := by
  by_cases h : o < buf.length
  · rw [List.getD_eq_getElem buf 0 h]
    exact hb _ (List.getElem_mem h)
  · rw [List.getD_eq_default buf 0 (le_of_not_lt h)]
    omega

theorem writeU32_readU32 (buf : List Nat) (hb : ∀ b ∈ buf, b < 256) (o : Nat) :
    writeU32 (readU32 buf o) =
      [buf.getD o 0, buf.getD (o + 1) 0, buf.getD (o + 2) 0, buf.getD (o + 3) 0] := by
  have h0 := getD_lt_256 buf hb o
  have h1 := getD_lt_256 buf hb (o + 1)
  have h2 := getD_lt_256 buf hb (o + 2)
  have h3 := getD_lt_256 buf hb (o + 3)
  simp only [writeU32, readU32, List.cons.injEq, and_true]
  refine ⟨?_, ?_, ?_, ?_⟩ <;> omega

theorem quadJoin_cons (f : Nat) (fs : List Nat) :
    quadJoin (f :: fs) = writeU32 f ++ quadJoin fs := rfl

theorem quadJoin_getD (fields : List Nat) (i : Nat) (h : i < 4 * fields.length) :
    (quadJoin fields).getD i 0 = (writeU32 (fields.getD (i / 4) 0)).getD (i % 4) 0 := by
  induction fields generalizing i with
  | nil => simp at h
  | cons f fs ih =>
    rw [quadJoin_cons]
    by_cases h4 : i < 4
    · rw [List.getD_append _ _ 0 i (by simp [writeU32]; omega)]
      have e1 : i / 4 = 0 := by omega
      have e2 : i % 4 = i := by omega
      rw [e1, e2, List.getD_cons_zero]
    · have hlen : (writeU32 f).length = 4 := rfl
      rw [List.getD_append_right _ _ 0 i (by simp [writeU32]; omega), hlen,
        ih (i - 4) (by simp only [List.length_cons] at h; omega)]
      have e1 : (i - 4) / 4 = i / 4 - 1 := by omega
      have e2 : (i - 4) % 4 = i % 4 := by omega
      obtain ⟨m, hm⟩ : ∃ m, i / 4 = m + 1 := ⟨i / 4 - 1, by omega⟩
      rw [e1, e2, hm, Nat.add_sub_cancel, List.getD_cons_succ]

theorem construct_texts (buf : List Nat) :
    (construct buf).texts = [readSlot buf 0 72 144, readSlot buf 4 76 148, readSlot buf 8 80 152, readSlot buf 12 84 156, readSlot buf 16 88 160, readSlot buf 20 92 164, readSlot buf 24 96 168] := by
  rw [show (construct buf).texts = (textLoop buf).1 from rfl, textLoop_eq]

theorem construct_datas (buf : List Nat) :
    (construct buf).datas = [readSlot buf 28 100 172, readSlot buf 32 104 176, readSlot buf 36 108 180, readSlot buf 40 112 184, readSlot buf 44 116 188, readSlot buf 48 120 192, readSlot buf 52 124 196, readSlot buf 56 128 200, readSlot buf 60 132 204, readSlot buf 64 136 208, readSlot buf 68 140 212] := by
  rw [show (construct buf).datas = (dataLoop buf).1 from rfl, dataLoop_eq]

theorem headerFields_construct_eq (buf : List Nat) :
    headerFields (construct buf) =
      [condOffset (readSlot buf 0 72 144), condOffset (readSlot buf 4 76 148),
       condOffset (readSlot buf 8 80 152), condOffset (readSlot buf 12 84 156),
       condOffset (readSlot buf 16 88 160), condOffset (readSlot buf 20 92 164),
       condOffset (readSlot buf 24 96 168), condOffset (readSlot buf 28 100 172),
       condOffset (readSlot buf 32 104 176), condOffset (readSlot buf 36 108 180),
       condOffset (readSlot buf 40 112 184), condOffset (readSlot buf 44 116 188),
       condOffset (readSlot buf 48 120 192), condOffset (readSlot buf 52 124 196),
       condOffset (readSlot buf 56 128 200), condOffset (readSlot buf 60 132 204),
       condOffset (readSlot buf 64 136 208), condOffset (readSlot buf 68 140 212),
       condAddr (readSlot buf 0 72 144), condAddr (readSlot buf 4 76 148),
       condAddr (readSlot buf 8 80 152), condAddr (readSlot buf 12 84 156),
       condAddr (readSlot buf 16 88 160), condAddr (readSlot buf 20 92 164),
       condAddr (readSlot buf 24 96 168), condAddr (readSlot buf 28 100 172),
       condAddr (readSlot buf 32 104 176), condAddr (readSlot buf 36 108 180),
       condAddr (readSlot buf 40 112 184), condAddr (readSlot buf 44 116 188),
       condAddr (readSlot buf 48 120 192), condAddr (readSlot buf 52 124 196),
       condAddr (readSlot buf 56 128 200), condAddr (readSlot buf 60 132 204),
       condAddr (readSlot buf 64 136 208), condAddr (readSlot buf 68 140 212),
       condLength (readSlot buf 0 72 144), condLength (readSlot buf 4 76 148),
       condLength (readSlot buf 8 80 152), condLength (readSlot buf 12 84 156),
       condLength (readSlot buf 16 88 160), condLength (readSlot buf 20 92 164),
       condLength (readSlot buf 24 96 168), condLength (readSlot buf 28 100 172),
       condLength (readSlot buf 32 104 176), condLength (readSlot buf 36 108 180),
       condLength (readSlot buf 40 112 184), condLength (readSlot buf 44 116 188),
       condLength (readSlot buf 48 120 192), condLength (readSlot buf 52 124 196),
       condLength (readSlot buf 56 128 200), condLength (readSlot buf 60 132 204),
       condLength (readSlot buf 64 136 208), condLength (readSlot buf 68 140 212),
       readU32 buf 0xD8, readU32 buf 0xDC, readU32 buf 0xE0] := by
  rw [headerFields, construct_texts, construct_datas,
    show (construct buf).bssAddr = readU32 buf 0xD8 from rfl,
    show (construct buf).bssSize = readU32 buf 0xDC from rfl,
    show (construct buf).entryPoint = readU32 buf 0xE0 from rfl]
  simp only [List.map_cons, List.map_nil, List.cons_append, List.nil_append]

theorem hf_off (buf : List Nat) (o l s : Nat) :
    condOffset (readSlot buf o l s) = readU32 buf o := by
  unfold condOffset readSlot
  split <;> simp_all

theorem hf_addr (buf : List Nat) (o l s : Nat)
    (h : readU32 buf o = 0 → readU32 buf l = 0) :
    condAddr (readSlot buf o l s) = readU32 buf l := by
  unfold condAddr readSlot
  split <;> simp_all

theorem hf_len (buf : List Nat) (o l s : Nat)
    (h : readU32 buf o = 0 → readU32 buf s = 0) :
    condLength (readSlot buf o l s) = readU32 buf s := by
  unfold condLength readSlot
  split <;> simp_all

theorem headerFields_construct_getD (buf : List Nat)
    (ht : ∀ i < 7, readU32 buf (4 * i) = 0 →
      readU32 buf (0x48 + 4 * i) = 0 ∧ readU32 buf (0x90 + 4 * i) = 0)
    (hd : ∀ j < 11, readU32 buf (0x1C + 4 * j) = 0 →
      readU32 buf (0x64 + 4 * j) = 0 ∧ readU32 buf (0xAC + 4 * j) = 0)
    (k : Nat) (hk : k < 57) :
    (headerFields (construct buf)).getD k 0 = readU32 buf (4 * k) := by
  rw [headerFields_construct_eq]
  interval_cases k
  · exact hf_off buf 0 72 144
  · exact hf_off buf 4 76 148
  · exact hf_off buf 8 80 152
  · exact hf_off buf 12 84 156
  · exact hf_off buf 16 88 160
  · exact hf_off buf 20 92 164
  · exact hf_off buf 24 96 168
  · exact hf_off buf 28 100 172
  · exact hf_off buf 32 104 176
  · exact hf_off buf 36 108 180
  · exact hf_off buf 40 112 184
  · exact hf_off buf 44 116 188
  · exact hf_off buf 48 120 192
  · exact hf_off buf 52 124 196
  · exact hf_off buf 56 128 200
  · exact hf_off buf 60 132 204
  · exact hf_off buf 64 136 208
  · exact hf_off buf 68 140 212
  · exact hf_addr buf 0 72 144 (fun hh => (ht 0 (by omega) hh).1)
  · exact hf_addr buf 4 76 148 (fun hh => (ht 1 (by omega) hh).1)
  · exact hf_addr buf 8 80 152 (fun hh => (ht 2 (by omega) hh).1)
  · exact hf_addr buf 12 84 156 (fun hh => (ht 3 (by omega) hh).1)
  · exact hf_addr buf 16 88 160 (fun hh => (ht 4 (by omega) hh).1)
  · exact hf_addr buf 20 92 164 (fun hh => (ht 5 (by omega) hh).1)
  · exact hf_addr buf 24 96 168 (fun hh => (ht 6 (by omega) hh).1)
  · exact hf_addr buf 28 100 172 (fun hh => (hd 0 (by omega) hh).1)
  · exact hf_addr buf 32 104 176 (fun hh => (hd 1 (by omega) hh).1)
  · exact hf_addr buf 36 108 180 (fun hh => (hd 2 (by omega) hh).1)
  · exact hf_addr buf 40 112 184 (fun hh => (hd 3 (by omega) hh).1)
  · exact hf_addr buf 44 116 188 (fun hh => (hd 4 (by omega) hh).1)
  · exact hf_addr buf 48 120 192 (fun hh => (hd 5 (by omega) hh).1)
  · exact hf_addr buf 52 124 196 (fun hh => (hd 6 (by omega) hh).1)
  · exact hf_addr buf 56 128 200 (fun hh => (hd 7 (by omega) hh).1)
  · exact hf_addr buf 60 132 204 (fun hh => (hd 8 (by omega) hh).1)
  · exact hf_addr buf 64 136 208 (fun hh => (hd 9 (by omega) hh).1)
  · exact hf_addr buf 68 140 212 (fun hh => (hd 10 (by omega) hh).1)
  · exact hf_len buf 0 72 144 (fun hh => (ht 0 (by omega) hh).2)
  · exact hf_len buf 4 76 148 (fun hh => (ht 1 (by omega) hh).2)
  · exact hf_len buf 8 80 152 (fun hh => (ht 2 (by omega) hh).2)
  · exact hf_len buf 12 84 156 (fun hh => (ht 3 (by omega) hh).2)
  · exact hf_len buf 16 88 160 (fun hh => (ht 4 (by omega) hh).2)
  · exact hf_len buf 20 92 164 (fun hh => (ht 5 (by omega) hh).2)
  · exact hf_len buf 24 96 168 (fun hh => (ht 6 (by omega) hh).2)
  · exact hf_len buf 28 100 172 (fun hh => (hd 0 (by omega) hh).2)
  · exact hf_len buf 32 104 176 (fun hh => (hd 1 (by omega) hh).2)
  · exact hf_len buf 36 108 180 (fun hh => (hd 2 (by omega) hh).2)
  · exact hf_len buf 40 112 184 (fun hh => (hd 3 (by omega) hh).2)
  · exact hf_len buf 44 116 188 (fun hh => (hd 4 (by omega) hh).2)
  · exact hf_len buf 48 120 192 (fun hh => (hd 5 (by omega) hh).2)
  · exact hf_len buf 52 124 196 (fun hh => (hd 6 (by omega) hh).2)
  · exact hf_len buf 56 128 200 (fun hh => (hd 7 (by omega) hh).2)
  · exact hf_len buf 60 132 204 (fun hh => (hd 8 (by omega) hh).2)
  · exact hf_len buf 64 136 208 (fun hh => (hd 9 (by omega) hh).2)
  · exact hf_len buf 68 140 212 (fun hh => (hd 10 (by omega) hh).2)
  · rfl
  · rfl
  · rfl

theorem headerFields_construct_length (buf : List Nat) :
    (headerFields (construct buf)).length = 57 := by
  rw [headerFields_construct_eq]
  rfl

theorem headerBytes_construct_getD (buf : List Nat)
    (hb : ∀ b ∈ buf, b < 256)
    (ht : ∀ i < 7, readU32 buf (4 * i) = 0 →
      readU32 buf (0x48 + 4 * i) = 0 ∧ readU32 buf (0x90 + 4 * i) = 0)
    (hd : ∀ j < 11, readU32 buf (0x1C + 4 * j) = 0 →
      readU32 buf (0x64 + 4 * j) = 0 ∧ readU32 buf (0xAC + 4 * j) = 0)
    (i : Nat) (hi : i < 228) :
    (headerBytes (construct buf)).getD i 0 = buf.getD i 0 := by
  rw [headerBytes, quadJoin_getD _ i (by rw [headerFields_construct_length]; omega),
    headerFields_construct_getD buf ht hd (i / 4) (by omega),
    writeU32_readU32 buf hb]
  obtain h | h | h | h : i % 4 = 0 ∨ i % 4 = 1 ∨ i % 4 = 2 ∨ i % 4 = 3 := by omega
  all_goals rw [h]
  all_goals simp only [List.getD_cons_zero, List.getD_cons_succ]
  all_goals congr 1
  all_goals omega

theorem headerBytes_construct_length (buf : List Nat) :
    (headerBytes (construct buf)).length = 228 := by
  have h : ∀ fs : List Nat, (quadJoin fs).length = 4 * fs.length := by
    intro fs
    induction fs with
    | nil => rfl
    | cons f fs ih => rw [quadJoin_cons, List.length_append, ih]; simp [writeU32]; omega
  rw [headerBytes, h, headerFields_construct_length]

theorem sectionData_length (buf : List Nat) (sec : DolSection) :
    (sectionData buf sec).length = sec.length := by
  simp [sectionData]

theorem sectionData_getD (buf : List Nat) (sec : DolSection) (k : Nat) (h : k < sec.length) :
    (sectionData buf sec).getD k 0 = buf.getD (sec.offset + k) 0 := by
  simp [sectionData, List.getD_eq_getElem?_getD, List.getElem?_map, List.getElem?_range, h]

theorem writeBytes_apply (f : Nat → Nat) (off : Nat) (data : List Nat) (pos : Nat) :
    writeBytes f off data pos =
      if off ≤ pos ∧ pos < off + data.length then data.getD (pos - off) 0 else f pos := rfl

theorem bodyWrite_cases (buf : List Nat) (f : Nat → Nat) (sec : DolSection) (pos : Nat) :
    bodyWrite buf f sec pos = f pos ∨ bodyWrite buf f sec pos = buf.getD pos 0 := by
  unfold bodyWrite
  split
  · rw [writeBytes_apply]
    split
    next h2 =>
      right
      rw [sectionData_length] at h2
      rw [sectionData_getD buf sec _ (by omega)]
      congr 1
      omega
    · left; rfl
  · left; rfl

theorem bodyWrite_preserves (buf : List Nat) (f : Nat → Nat) (sec : DolSection) (pos : Nat)
    (h : f pos = buf.getD pos 0) : bodyWrite buf f sec pos = buf.getD pos 0 := by
  rcases bodyWrite_cases buf f sec pos with h2 | h2 <;> rw [h2]
  exact h

theorem bodyWrite_establishes (buf : List Nat) (f : Nat → Nat) (sec : DolSection) (pos : Nat)
    (hocc : sec.offset ≠ 0) (h1 : sec.offset ≤ pos) (h2 : pos < sec.offset + sec.length) :
    bodyWrite buf f sec pos = buf.getD pos 0 := by
  unfold bodyWrite
  rw [if_pos hocc, writeBytes_apply]
  split
  next =>
    rw [sectionData_getD buf sec _ (by omega)]
    congr 1
    omega
  next h3 =>
    exact absurd ⟨h1, by rw [sectionData_length]; omega⟩ h3

theorem foldBody_cases (buf : List Nat) (secs : List DolSection) (f : Nat → Nat) (pos : Nat) :
    (secs.foldl (bodyWrite buf) f) pos = f pos ∨
      (secs.foldl (bodyWrite buf) f) pos = buf.getD pos 0 := by
  induction secs generalizing f with
  | nil => left; rfl
  | cons s ss ih =>
    rw [List.foldl_cons]
    rcases ih (bodyWrite buf f s) with h | h
    · rw [h]; exact bodyWrite_cases buf f s pos
    · right; exact h

theorem foldBody_preserves (buf : List Nat) (secs : List DolSection) (f : Nat → Nat) (pos : Nat)
    (h : f pos = buf.getD pos 0) :
    (secs.foldl (bodyWrite buf) f) pos = buf.getD pos 0 := by
  induction secs generalizing f with
  | nil => exact h
  | cons s ss ih =>
    rw [List.foldl_cons]
    exact ih _ (bodyWrite_preserves buf f s pos h)

theorem foldBody_establishes (buf : List Nat) (secs : List DolSection) (f : Nat → Nat)
    (pos : Nat) (sec : DolSection) (hmem : sec ∈ secs) (hocc : sec.offset ≠ 0)
    (h1 : sec.offset ≤ pos) (h2 : pos < sec.offset + sec.length) :
    (secs.foldl (bodyWrite buf) f) pos = buf.getD pos 0 := by
  induction secs generalizing f with
  | nil => cases hmem
  | cons s ss ih =>
    rw [List.foldl_cons]
    rcases List.mem_cons.mp hmem with rfl | hm
    · exact foldBody_preserves buf ss _ pos (bodyWrite_establishes buf f sec pos hocc h1 h2)
    · exact ih (bodyWrite buf f s) hm

/-- The well-formedness hypothesis as stated by claim C5: a byte buffer
whose 28 reserved header bytes (offsets 0xE4-0xFF) are zero and whose
occupied slot bodies lie inside the buffer. -/
def wfC5 (buf : List Nat) : Prop :=
  (∀ b ∈ buf, b < 256) ∧
  (∀ i < 256, 0xE4 ≤ i → buf.getD i 0 = 0) ∧
  (∀ s ∈ (construct buf).texts ++ (construct buf).datas,
    s.offset ≠ 0 → s.offset + s.length ≤ buf.length)

/-- Strengthened well-formedness actually needed for the round trip: a
slot whose file-offset header field is zero must also carry zero
load-address and size header fields, because the constructor drops those
fields for unoccupied slots and `writeTo` re-stamps them as zero. -/
def wfC5strong (buf : List Nat) : Prop :=
  wfC5 buf ∧
  (∀ i < 7, readU32 buf (4 * i) = 0 →
    readU32 buf (0x48 + 4 * i) = 0 ∧ readU32 buf (0x90 + 4 * i) = 0) ∧
  (∀ j < 11, readU32 buf (0x1C + 4 * j) = 0 →
    readU32 buf (0x64 + 4 * j) = 0 ∧ readU32 buf (0xAC + 4 * j) = 0)

/-- C5 (amended): for a well-formed DOL input whose unoccupied slots also
have zero load-address and size header fields, constructing the image and
re-emitting it with `writeTo` onto a pre-zeroed output reproduces the
input byte-for-byte over the full 256-byte header and over every occupied
slot body. -/
theorem c5_roundtrip_amended (buf : List Nat) (h : wfC5strong buf) :
    (∀ i < 256, writeTo buf (construct buf) i = buf.getD i 0) ∧
    (∀ s ∈ (construct buf).texts ++ (construct buf).datas, s.offset ≠ 0 →
      ∀ k < s.length, writeTo buf (construct buf) (s.offset + k) = buf.getD (s.offset + k) 0) := by
  obtain ⟨⟨hb, hres, _⟩, ht, hd⟩ := h
  have hpart1 : ∀ i < 256, writeTo buf (construct buf) i = buf.getD i 0 := by
    intro i hi
    unfold writeTo
    rw [writeBytes_apply, headerBytes_construct_length]
    by_cases hlt : i < 228
    · rw [if_pos ⟨Nat.zero_le i, by omega⟩, Nat.sub_zero]
      exact headerBytes_construct_getD buf hb ht hd i hlt
    · rw [if_neg (by omega)]
      have hzero := hres i hi (by omega)
      rcases foldBody_cases buf (construct buf).datas
        ((construct buf).texts.foldl (bodyWrite buf) (fun _ => 0)) i with h2 | h2
      · rcases foldBody_cases buf (construct buf).texts (fun _ => 0) i with h3 | h3
        · rw [h2, h3, hzero]
        · rw [h2, h3]
      · rw [h2]
  refine ⟨hpart1, ?_⟩
  intro s hs hocc k hk
  by_cases hlt : s.offset + k < 256
  · exact hpart1 _ hlt
  · unfold writeTo
    rw [writeBytes_apply, headerBytes_construct_length, if_neg (by omega)]
    rcases List.mem_append.mp hs with hmem | hmem
    · exact foldBody_preserves buf (construct buf).datas _ _
        (foldBody_establishes buf (construct buf).texts _ _ s hmem hocc (by omega) (by omega))
    · exact foldBody_establishes buf (construct buf).datas _ _ s hmem hocc (by omega) (by omega)

/-- A 256-byte buffer satisfying claim C5's well-formedness (reserved
bytes zero, no occupied slot bodies outside the buffer) whose text slot 0
is unoccupied (file-offset field zero) but has a non-zero load-address
header field (byte 75, the low byte of `TextLoads[0]`, is 1). -/
def c5cex : List Nat := List.replicate 75 0 ++ [1] ++ List.replicate 180 0

/-- C5 counterexample: the claim as stated is false.  `c5cex` is
well-formed in the claim's sense, yet the round trip is not
byte-identical over the 256-byte header: the constructor drops the
load-address field of the unoccupied slot (line 142 skips the slot), so
`writeTo` re-stamps byte 75 as 0 while the input has 1 there. -/
theorem c5_roundtrip_counterexample :
    wfC5 c5cex ∧ writeTo c5cex (construct c5cex) 75 ≠ c5cex.getD 75 0 := by
  constructor
  · unfold wfC5
    decide
  · decide

/-- A well-formed 288-byte DOL with one occupied text slot (file offset
0x100, load address 0x80003100, size 0x20) whose body is 32 bytes of
0xAB, satisfying the strengthened well-formedness. -/
def c5wit : List Nat :=
  [0, 0, 1, 0] ++ List.replicate 68 0 ++ [0x80, 0, 0x31, 0] ++ List.replicate 68 0 ++
    [0, 0, 0, 0x20] ++ List.replicate 108 0 ++ List.replicate 32 0xAB

theorem c5_roundtrip_amended_witness :
    wfC5strong c5wit ∧
    (∀ i < 256, writeTo c5wit (construct c5wit) i = c5wit.getD i 0) ∧
    (∀ s ∈ (construct c5wit).texts ++ (construct c5wit).datas, s.offset ≠ 0 →
      ∀ k < s.length, writeTo c5wit (construct c5wit) (s.offset + k) =
        c5wit.getD (s.offset + k) 0) :=
  ⟨by unfold wfC5strong wfC5; decide,
   (c5_roundtrip_amended c5wit (by unfold wfC5strong wfC5; decide)).1,
   (c5_roundtrip_amended c5wit (by unfold wfC5strong wfC5; decide)).2⟩

/-- An `MCOperand`: a register id (`op.getReg()`, unsigned) or an
immediate (`op.getImm()`, an `int64_t`). -/
inductive MCOperandM where
  | reg (r : Nat)
  | imm (v : Int)
deriving DecidableEq, Repr

/-- A decoded `MCInst`: opcode id plus operand list. -/
structure MCInstM where
  opcode : Nat
  operands : List MCOperandM
deriving DecidableEq, Repr

/-- The operand loop of `getPPCRegisterOp` (lines 427-432): first
register operand, else the 0xffffffff sentinel. -/
def firstRegOp : List MCOperandM → Nat
  | [] => 0xffffffff
  | .reg r :: _ => r
  | .imm _ :: rest => firstRegOp rest

/-- `getPPCRegisterOp` (lines 427-432). -/
def getPPCRegisterOp (inst : MCInstM) : Nat := firstRegOp inst.operands

/-- The operand loop of `getPPCImmediateOp` (lines 434-439): the first
immediate operand truncated from `int64_t` to `uint32_t`, else the
0xffffffff sentinel. -/
def firstImmOp : List MCOperandM → Nat
  | [] => 0xffffffff
  | .imm v :: _ => (v % 2 ^ 32).toNat
  | .reg _ :: rest => firstImmOp rest

/-- `getPPCImmediateOp` (lines 434-439). -/
def getPPCImmediateOp (inst : MCInstM) : Nat := firstImmOp inst.operands

/-- The target-descriptor facts the scanner queries (lines 445-472 cache
the register ids of `R1`/`R2`/`R13` and the opcode ids of `LIS`/`ORI`;
`Desc.isCall()` and `Desc.hasImplicitDefOfPhysReg(ppcLR)` are per-opcode
properties of the instruction table).  The cached `BL` opcode id is never
used by the scan conditions and is omitted. -/
structure PPCTargetDesc where
  r1 : Nat
  r2 : Nat
  r13 : Nat
  lisOpc : Nat
  oriOpc : Nat
  isCall : Nat → Bool
  hasImplicitDefOfLR : Nat → Bool

/-- The scan-derived `DOLFile` state (lines 127-129, 132): the three SDK
base pointers and the `OrigCallAddrToInstFileOffs` multimap, modelled as
an insertion-ordered list of (target VA, file offset) pairs. -/
structure ScanState where
  stackBase : Nat := 0
  sdataBase : Nat := 0
  sdata2Base : Nat := 0
  callIndex : List (Nat × Nat) := []
deriving DecidableEq, Repr

/-- The slot-0 base-recovery block (lines 502-521): per instruction, an
`LIS` targeting `R1`/`R2`/`R13` overwrites the corresponding base with
its immediate shifted left 16 bits (a `uint32_t` computation), an `ORI`
ORs its immediate into the base; no pairing between the two. -/
def scanBases (T : PPCTargetDesc) (inst : MCInstM) (st : ScanState) : ScanState :=
  let instReg := getPPCRegisterOp inst
  if instReg = T.r1 then
    if inst.opcode = T.lisOpc then
      { st with stackBase := getPPCImmediateOp inst <<< 16 % 2 ^ 32 }
    else if inst.opcode = T.oriOpc then
      { st with stackBase := st.stackBase ||| getPPCImmediateOp inst }
    else st
  else if instReg = T.r2 then
    if inst.opcode = T.lisOpc then
      { st with sdata2Base := getPPCImmediateOp inst <<< 16 % 2 ^ 32 }
    else if inst.opcode = T.oriOpc then
      { st with sdata2Base := st.sdata2Base ||| getPPCImmediateOp inst }
    else st
  else if instReg = T.r13 then
    if inst.opcode = T.lisOpc then
      { st with sdataBase := getPPCImmediateOp inst <<< 16 % 2 ^ 32 }
    else if inst.opcode = T.oriOpc then
      { st with sdataBase := st.sdataBase ||| getPPCImmediateOp inst }
    else st
  else st

/-- The call-site indexing step (lines 523-527): when the instruction is
classified as a call and implicitly defines `LR`, insert its first
immediate operand mapped to the file offset of the calling instruction —
unless the extracted immediate is the 0xffffffff sentinel. -/
def scanCall (T : PPCTargetDesc) (fileIndex : Nat) (inst : MCInstM)
    (st : ScanState) : ScanState :=
  if T.isCall inst.opcode && T.hasImplicitDefOfLR inst.opcode then
    if getPPCImmediateOp inst ≠ 0xffffffff then
      { st with callIndex := st.callIndex ++ [(getPPCImmediateOp inst, fileIndex)] }
    else st
  else st

/-- The per-instruction action of the scan loop (the `Success` case at
lines 499-529): base recovery only inside text slot 0 (`if (s == 0)`),
then call-site indexing. -/
def scanInst (T : PPCTargetDesc) (slot0 : Bool) (fileIndex : Nat) (inst : MCInstM)
    (st : ScanState) : ScanState :=
  scanCall T fileIndex inst (if slot0 then scanBases T inst st else st)

/-- The decoder interface: `DC->getInstruction` (line 488) given a file
index and a decode VA. -/
inductive DecodeResult where
  | fail (size : Nat)
  | softFail (inst : MCInstM) (size : Nat)
  | success (inst : MCInstM) (size : Nat)
deriving DecidableEq, Repr

/-- The instruction walk over one text slot (lines 482-531):
`Index += Size` stepping, decode failures advance at least one byte
(`if (Size == 0) Size = 1`), `SoftFail` falls through to `Success`.  The
recursion is fuelled by the slot length: every reachable step advances
`Index` by at least one byte except a (non-terminating in the source)
decoder that claims success with size 0, which exhausts the fuel. -/
def scanLoop (T : PPCTargetDesc) (decode : Nat → Nat → DecodeResult) (sec : DolSection)
    (slot0 : Bool) : Nat → Nat → ScanState → ScanState
  | 0, _, st => st
  | fuel + 1, idx, st =>
    if idx < sec.length then
      match decode (sec.offset + idx) (sec.addr + idx) with
      | .fail size => scanLoop T decode sec slot0 fuel (idx + if size = 0 then 1 else size) st
      | .softFail inst size =>
        scanLoop T decode sec slot0 fuel (idx + size) (scanInst T slot0 (sec.offset + idx) inst st)
      | .success inst size =>
        scanLoop T decode sec slot0 fuel (idx + size) (scanInst T slot0 (sec.offset + idx) inst st)
    else st

/-- `DOLFile::scanForRelocations` (lines 441-533): walk the seven text
slots in order, skipping unoccupied ones; only slot index 0 performs base
recovery. -/
def scanForRelocations (T : PPCTargetDesc) (decode : Nat → Nat → DecodeResult)
    (d : DOLFile) : ScanState :=
  (List.range 7).foldl
    (fun st s =>
      let sec := d.texts.getD s {}
      if sec.offset = 0 then st
      else scanLoop T decode sec (decide (s = 0)) sec.length 0 st)
    {}

theorem scanBases_callIndex (T : PPCTargetDesc) (inst : MCInstM) (st : ScanState) :
    (scanBases T inst st).callIndex = st.callIndex := by
  unfold scanBases
  dsimp only
  split_ifs <;> rfl

theorem scanCall_stackBase (T : PPCTargetDesc) (f : Nat) (inst : MCInstM) (st : ScanState) :
    (scanCall T f inst st).stackBase = st.stackBase := by
  unfold scanCall
  split_ifs <;> rfl

theorem scanCall_sdataBase (T : PPCTargetDesc) (f : Nat) (inst : MCInstM) (st : ScanState) :
    (scanCall T f inst st).sdataBase = st.sdataBase := by
  unfold scanCall
  split_ifs <;> rfl

theorem scanCall_sdata2Base (T : PPCTargetDesc) (f : Nat) (inst : MCInstM) (st : ScanState) :
    (scanCall T f inst st).sdata2Base = st.sdata2Base := by
  unfold scanCall
  split_ifs <;> rfl

/-- `MCOperand::isImm`. -/
def isImmOp : MCOperandM → Bool
  | .imm _ => true
  | .reg _ => false

theorem firstImmOp_no_imm (ops : List MCOperandM)
    (h : ∀ op ∈ ops, isImmOp op = false) : firstImmOp ops = 0xffffffff := by
  induction ops with
  | nil => rfl
  | cons op rest ih =>
    cases op with
    | reg r => exact ih (fun o ho => h o (List.mem_cons_of_mem _ ho))
    | imm v => simpa [isImmOp] using h (.imm v) (List.mem_cons_self _ _)

/-- A concrete target descriptor with the shape of the real `750cl`
tables: distinct register ids for `R1`/`R2`/`R13`, distinct opcode ids,
and opcode 50 (standing for `BL`) the only opcode that is a call
implicitly defining `LR`. -/
def ppcT : PPCTargetDesc :=
  { r1 := 1, r2 := 2, r13 := 13, lisOpc := 51, oriOpc := 52,
    isCall := fun op => op == 50, hasImplicitDefOfLR := fun op => op == 50 }

/-- `lis r1, 0x8040`. -/
def lisR1 : MCInstM := { opcode := 51, operands := [.reg 1, .imm 0x8040] }

/-- `ori r1, r1, 0x1234`. -/
def oriR1 : MCInstM := { opcode := 52, operands := [.reg 1, .reg 1, .imm 0x1234] }

/-- `bl 0x80003200`. -/
def blInst : MCInstM := { opcode := 50, operands := [.imm 0x80003200] }

/-- A `bl` whose genuine immediate target equals the 0xffffffff
sentinel. -/
def blSentinel : MCInstM := { opcode := 50, operands := [.imm 0xffffffff] }

/-- A DOL image whose `.init` (text slot 0) spans file offsets
0x100-0x107 at VA 0x80003100. -/
def c6dol : DOLFile :=
  { texts := [⟨0x100, 0x80003100, 8⟩, {}, {}, {}, {}, {}, {}]
    datas := [{}, {}, {}, {}, {}, {}, {}, {}, {}, {}, {}]
    bssAddr := 0, bssSize := 0, entryPoint := 0, dolphinSections := true }

/-- A decoder yielding `lis r1, 0x8040` at file offset 0x100 and
`ori r1, r1, 0x1234` at 0x104. -/
def c6decode : Nat → Nat → DecodeResult := fun fi _ =>
  if fi = 0x100 then .success lisR1 4
  else if fi = 0x104 then .success oriR1 4
  else .fail 0

/-- C6: inside text slot 0, an instruction whose (first) register operand
is R1/R2/R13 updates the corresponding base (StackBase, Sdata2Base,
SdataBase): `LIS` overwrites it with the immediate shifted left 16 bits
(as a `uint32_t`), `ORI` ORs the immediate into the current value, with
no pairing between the two; scanning a slot-0 body of
`lis r1, 0x8040; ori r1, r1, 0x1234` leaves StackBase = 0x80401234. -/
theorem c6_sdk_base_recovery (T : PPCTargetDesc) (inst : MCInstM) (st : ScanState) (f : Nat)
    (h12 : T.r1 ≠ T.r2) (h113 : T.r1 ≠ T.r13) (h213 : T.r2 ≠ T.r13)
    (hlo : T.lisOpc ≠ T.oriOpc) :
    (getPPCRegisterOp inst = T.r1 → inst.opcode = T.lisOpc →
      (scanInst T true f inst st).stackBase = getPPCImmediateOp inst <<< 16 % 2 ^ 32) ∧
    (getPPCRegisterOp inst = T.r1 → inst.opcode = T.oriOpc →
      (scanInst T true f inst st).stackBase = st.stackBase ||| getPPCImmediateOp inst) ∧
    (getPPCRegisterOp inst = T.r2 → inst.opcode = T.lisOpc →
      (scanInst T true f inst st).sdata2Base = getPPCImmediateOp inst <<< 16 % 2 ^ 32) ∧
    (getPPCRegisterOp inst = T.r2 → inst.opcode = T.oriOpc →
      (scanInst T true f inst st).sdata2Base = st.sdata2Base ||| getPPCImmediateOp inst) ∧
    (getPPCRegisterOp inst = T.r13 → inst.opcode = T.lisOpc →
      (scanInst T true f inst st).sdataBase = getPPCImmediateOp inst <<< 16 % 2 ^ 32) ∧
    (getPPCRegisterOp inst = T.r13 → inst.opcode = T.oriOpc →
      (scanInst T true f inst st).sdataBase = st.sdataBase ||| getPPCImmediateOp inst) ∧
    (scanForRelocations ppcT c6decode c6dol).stackBase = 0x80401234 := by
  refine ⟨?_, ?_, ?_, ?_, ?_, ?_, by decide⟩
  · intro hr hop
    simp [scanInst, scanCall_stackBase, scanBases, hr, hop]
  · intro hr hop
    simp [scanInst, scanCall_stackBase, scanBases, hr, hop, hlo.symm]
  · intro hr hop
    simp [scanInst, scanCall_sdata2Base, scanBases, hr, hop, h12.symm]
  · intro hr hop
    simp [scanInst, scanCall_sdata2Base, scanBases, hr, hop, h12.symm, hlo.symm]
  · intro hr hop
    simp [scanInst, scanCall_sdataBase, scanBases, hr, hop, h113.symm, h213.symm]
  · intro hr hop
    simp [scanInst, scanCall_sdataBase, scanBases, hr, hop, h113.symm, h213.symm, hlo.symm]

theorem c6_sdk_base_recovery_witness :
    (ppcT.r1 ≠ ppcT.r2 ∧ ppcT.r1 ≠ ppcT.r13 ∧ ppcT.r2 ≠ ppcT.r13 ∧
      ppcT.lisOpc ≠ ppcT.oriOpc) ∧
    (getPPCRegisterOp lisR1 = ppcT.r1 ∧ lisR1.opcode = ppcT.lisOpc) ∧
    (scanInst ppcT true 0 lisR1 {}).stackBase = 0x80400000 ∧
    (scanForRelocations ppcT c6decode c6dol).stackBase = 0x80401234 := by
  refine ⟨by decide, by decide, ?_, ?_⟩
  · rw [(c6_sdk_base_recovery ppcT lisR1 {} 0 (by decide) (by decide) (by decide)
      (by decide)).1 (by decide) (by decide)]
    decide
  · exact (c6_sdk_base_recovery ppcT lisR1 {} 0 (by decide) (by decide) (by decide)
      (by decide)).2.2.2.2.2.2

/-- A DOL image whose `.init` (text slot 0) spans file offsets
0x100-0x10B at VA 0x80003100; offsets 0x100-0x107 hold illegible bytes,
0x108 holds a 4-byte call instruction. -/
def c7dol : DOLFile :=
  { texts := [⟨0x100, 0x80003100, 12⟩, {}, {}, {}, {}, {}, {}]
    datas := [{}, {}, {}, {}, {}, {}, {}, {}, {}, {}, {}]
    bssAddr := 0, bssSize := 0, entryPoint := 0, dolphinSections := true }

/-- A decoder yielding `bl 0x80003200` at file offset 0x108 and decode
failures elsewhere. -/
def c7decode : Nat → Nat → DecodeResult := fun fi _ =>
  if fi = 0x108 then .success blInst 4 else .fail 0

/-- The same decoder but with a call whose genuine immediate operand is
0xffffffff. -/
def c7cexDecode : Nat → Nat → DecodeResult := fun fi _ =>
  if fi = 0x108 then .success blSentinel 4 else .fail 0

/-- C7 counterexample: the claim as stated inserts an entry for *every*
successfully decoded call that implicitly defines LR, keyed by its first
immediate operand.  Here a call at file offset 0x108 decodes successfully,
is classified as a call defining LR, and its first immediate operand is
0xffffffff — yet CallSiteIndex stays empty, because the scanner's guard
`if (Imm != 0xffffffff)` (line 525) drops it. -/
theorem c7_call_index_counterexample :
    ppcT.isCall blSentinel.opcode = true ∧
    ppcT.hasImplicitDefOfLR blSentinel.opcode = true ∧
    getPPCImmediateOp blSentinel = 0xffffffff ∧
    c7cexDecode 0x108 0x80003108 = .success blSentinel 4 ∧
    (scanForRelocations ppcT c7cexDecode c7dol).callIndex = [] := by
  decide

/-- C7 (amended): for every successfully decoded instruction in an
occupied text slot classified as a call that implicitly defines LR, and
whose extracted first immediate operand is not the 0xffffffff sentinel,
the scanner appends (immediate, file offset of the call) to
CallSiteIndex; in particular a `bl 0x80003200` at file offset 0x108
yields the entry (0x80003200 → 0x108). -/
theorem c7_call_index_amended (T : PPCTargetDesc) (slot0 : Bool) (f : Nat) (inst : MCInstM)
    (st : ScanState)
    (hcall : T.isCall inst.opcode = true) (hlr : T.hasImplicitDefOfLR inst.opcode = true)
    (himm : getPPCImmediateOp inst ≠ 0xffffffff) :
    (scanInst T slot0 f inst st).callIndex = st.callIndex ++ [(getPPCImmediateOp inst, f)] ∧
    (scanForRelocations ppcT c7decode c7dol).callIndex = [(0x80003200, 0x108)] := by
  constructor
  · cases slot0
    · simp [scanInst, scanCall, hcall, hlr, himm]
    · simp [scanInst, scanCall, hcall, hlr, himm, scanBases_callIndex]
  · decide

theorem c7_call_index_amended_witness :
    (ppcT.isCall blInst.opcode = true ∧ ppcT.hasImplicitDefOfLR blInst.opcode = true ∧
      getPPCImmediateOp blInst ≠ 0xffffffff) ∧
    (scanInst ppcT false 0x108 blInst {}).callIndex =
      [] ++ [(getPPCImmediateOp blInst, 0x108)] ∧
    (scanForRelocations ppcT c7decode c7dol).callIndex = [(0x80003200, 0x108)] :=
  ⟨⟨by decide, by decide, by decide⟩,
   (c7_call_index_amended ppcT false 0x108 blInst {} (by decide) (by decide) (by decide)).1,
   (c7_call_index_amended ppcT false 0x108 blInst {} (by decide) (by decide) (by decide)).2⟩

/-- C9: the operand extractor returns the 0xffffffff sentinel when the
instruction has no immediate operand at all, and a call implicitly
defining LR whose extracted immediate equals 0xffffffff adds no entry to
CallSiteIndex — so a call genuinely targeting 0xffffffff is silently
never indexed. -/
theorem c9_sentinel_not_indexed :
    (∀ inst : MCInstM, (∀ op ∈ inst.operands, isImmOp op = false) →
      getPPCImmediateOp inst = 0xffffffff) ∧
    (∀ (T : PPCTargetDesc) (slot0 : Bool) (f : Nat) (inst : MCInstM) (st : ScanState),
      T.isCall inst.opcode = true → T.hasImplicitDefOfLR inst.opcode = true →
      getPPCImmediateOp inst = 0xffffffff →
      (scanInst T slot0 f inst st).callIndex = st.callIndex) := by
  constructor
  · intro inst h
    exact firstImmOp_no_imm inst.operands h
  · intro T slot0 f inst st hcall hlr himm
    cases slot0
    · simp [scanInst, scanCall, hcall, hlr, himm]
    · simp [scanInst, scanCall, hcall, hlr, himm, scanBases_callIndex]

theorem c9_sentinel_not_indexed_witness :
    getPPCImmediateOp { opcode := 50, operands := [.reg 1] } = 0xffffffff ∧
    (scanInst ppcT true 0x108 blSentinel {}).callIndex = ([] : List (Nat × Nat)) :=
  ⟨c9_sentinel_not_indexed.1 { opcode := 50, operands := [.reg 1] } (by decide),
   c9_sentinel_not_indexed.2 ppcT true 0x108 blSentinel {} (by decide) (by decide) (by decide)⟩

/-- `DOLFile::replaceTargetAddressRelocations` (lines 535-541): look up
every call-site entry recorded under `oldAddr` (`equal_range(oldAddr)`)
and iterate the matches; the loop body (line 539) is the bare expression
`it->second;`, which has no effect — no instruction bytes are rewritten,
no error is reported, and `newAddr` is never read. -/
def replaceTargetAddressRelocations (callIndex : List (Nat × Nat)) (buf : List Nat)
    (oldAddr newAddr : Nat) : List Nat :=
  (callIndex.filter (fun e => e.1 = oldAddr)).foldl (fun b _ => b) buf

/-- C1: the claim requires every call site recorded under old_va to be
rewritten in place toward new_va, with a loud error outside the ±32 MiB
displacement range.  The source's Relocation Patcher is a stub: for every
call index, buffer and address pair it returns the buffer unchanged and
reports nothing — in particular for a recorded call site
(0x80003200 → 0x108) retargeted to 0x80004000, where the claim demands
the bytes at 0x108 change. -/
theorem c1_replace_relocations_noop :
    (∀ (callIndex : List (Nat × Nat)) (buf : List Nat) (oldAddr newAddr : Nat),
      replaceTargetAddressRelocations callIndex buf oldAddr newAddr = buf) ∧
    replaceTargetAddressRelocations [(0x80003200, 0x108)] (List.replicate 0x120 0)
      0x80003200 0x80004000 = List.replicate 0x120 0 := by
  have h : ∀ (l : List (Nat × Nat)) (buf : List Nat),
      l.foldl (fun b (_ : Nat × Nat) => b) buf = buf := by
    intro l
    induction l with
    | nil => intro buf; rfl
    | cons e rest ih =>
      intro buf
      rw [List.foldl_cons]
      exact ih buf
  exact ⟨fun ci buf o n => h _ buf, h _ _⟩

/-- `SortSectionPolicy` of the host linker script model. -/
inductive SortSectionPolicy where
  | Default
  | None
  | Priority
  | Alignment
  | Name
deriving DecidableEq, Repr

/-- One entry of `InputSectionDescription::SectionPatterns`: the glob
list handed to `compileGlobPatterns` plus the two sort policies. -/
structure SectionPattern where
  globs : List String
  sortOuter : SortSectionPolicy
  sortInner : SortSectionPolicy
deriving DecidableEq, Repr

/-- `InputSectionDescription("*")` with its section patterns. -/
structure InputSectionDescription where
  filePattern : String
  sectionPatterns : List SectionPattern
deriving DecidableEq, Repr

/-- An `OutputSectionCommand`: name, attached input-section descriptions,
and the optional address expression (an unassigned `std::function` is
`Option.none`). -/
structure OutputSectionCommand where
  name : String
  commands : List InputSectionDescription
  addrExpr : Option (Nat → Nat)

instance : Inhabited OutputSectionCommand := ⟨⟨"", [], Option.none⟩⟩

/-- The `Align32Expr` lambda (line 851): `(Dot + 31) & ~31` over
`uint64_t`. -/
def align32Expr (dot : Nat) : Nat := (dot + 31) % 2 ^ 64 &&& (2 ^ 64 - 32)

/-- The programmatic linker-script synthesis block (lines 820-861),
statement by statement: the `.hdata` input description `DataIn` is pushed
onto `TextOut->Commands` (line 849), not onto `DataOut`; and both
`AddrExpr` assignments at lines 852-853 target `Sdata2Out`, so
`SdataOut->AddrExpr` keeps its empty default. -/
def hanafudaScriptCommands : List OutputSectionCommand :=
  let sdataIn : InputSectionDescription :=
    { filePattern := "*",
      sectionPatterns := [{ globs := [".sdata", ".sbss"],
                            sortOuter := .None, sortInner := .None }] }
  let sdataOut : OutputSectionCommand :=
    { name := ".sdata", commands := [sdataIn], addrExpr := Option.none }
  let sdata2In : InputSectionDescription :=
    { filePattern := "*",
      sectionPatterns := [{ globs := [".sdata2", ".sbss2"],
                            sortOuter := .None, sortInner := .None }] }
  let sdata2Out : OutputSectionCommand :=
    { name := ".sdata2", commands := [sdata2In], addrExpr := some align32Expr }
  let textIn : InputSectionDescription :=
    { filePattern := "*",
      sectionPatterns := [{ globs := [".text", ".text.*"],
                            sortOuter := .None, sortInner := .None }] }
  let dataIn : InputSectionDescription :=
    { filePattern := "*",
      sectionPatterns := [{ globs := [".data", ".data.*", ".rodata", ".rodata.*", ".bss"],
                            sortOuter := .None, sortInner := .None }] }
  let textOut : OutputSectionCommand :=
    { name := ".htext", commands := [textIn, dataIn], addrExpr := some align32Expr }
  let dataOut : OutputSectionCommand :=
    { name := ".hdata", commands := [], addrExpr := some align32Expr }
  [sdataOut, sdata2Out, textOut, dataOut]

/-- C2: four output sections are pushed in the claimed order and every
section pattern uses sort policy None, but the synthesis diverges from
the claim in two ways: the `.hdata` command carries no input-section
description at all (its `DataIn` was pushed onto `.htext`, which
therefore collects the `.data`/`.rodata`/`.bss` patterns in addition to
`.text`/`.text.*`), and `.sdata` carries no address expression (both
`AddrExpr` assignments wrote to `.sdata2`).  The expression the other
three sections carry does round the location counter up to 32 bytes. -/
theorem c2_script_synthesis_divergence :
    hanafudaScriptCommands.length = 4 ∧
    hanafudaScriptCommands.map (fun c => c.name) = [".sdata", ".sdata2", ".htext", ".hdata"] ∧
    (hanafudaScriptCommands.getD 3 default).commands = [] ∧
    (hanafudaScriptCommands.getD 2 default).commands.map
        (fun c => c.sectionPatterns.map (fun p => p.globs)) =
      [[[".text", ".text.*"]], [[".data", ".data.*", ".rodata", ".rodata.*", ".bss"]]] ∧
    (hanafudaScriptCommands.getD 0 default).addrExpr = Option.none ∧
    (hanafudaScriptCommands.getD 1 default).addrExpr = some align32Expr ∧
    (hanafudaScriptCommands.getD 2 default).addrExpr = some align32Expr ∧
    (hanafudaScriptCommands.getD 3 default).addrExpr = some align32Expr ∧
    hanafudaScriptCommands.map
        (fun c => c.commands.map (fun d => d.sectionPatterns.map
          (fun p => (p.sortOuter, p.sortInner)))) =
      [[[(.None, .None)]], [[(.None, .None)]], [[(.None, .None)], [(.None, .None)]], []] ∧
    (∀ dot, dot + 31 < 2 ^ 64 → align32Expr dot = (dot + 31) / 32 * 32) :=
  ⟨rfl, rfl, rfl, rfl, rfl, rfl, rfl, rfl, rfl, by
    intro dot h
    unfold align32Expr
    rw [Nat.mod_eq_of_lt h]
    have hm : (2 : Nat) ^ 64 - 32 = (2 ^ 59 - 1) <<< 5 := by
      rw [Nat.shiftLeft_eq]
      norm_num
    have hr : (dot + 31) / 32 * 32 = ((dot + 31) >>> 5) <<< 5 := by
      rw [Nat.shiftRight_eq_div_pow, Nat.shiftLeft_eq]
    rw [hm, hr]
    apply Nat.eq_of_testBit_eq
    intro i
    rw [Nat.testBit_and, Nat.testBit_shiftLeft, Nat.testBit_shiftLeft,
      Nat.testBit_two_pow_sub_one, Nat.testBit_shiftRight]
    by_cases h5 : 5 ≤ i
    · have e : 5 + (i - 5) = i := by omega
      rw [e]
      by_cases h64 : i - 5 < 59
      · simp [h5, h64, Bool.and_comm]
      · have hbit : (dot + 31).testBit i = false :=
          Nat.testBit_lt_two_pow
            (lt_of_lt_of_le h (Nat.pow_le_pow_right (by norm_num) (by omega)))
        simp [hbit]
    · simp [h5]⟩

/-- `HanafudaSecType`: the section-kind tag carried by DOL-sourced
symbols (spec §3: section_kind ∈ Text, Data, Bss). -/
inductive HanafudaSecType where
  | Text
  | Data
  | Bss
deriving DecidableEq, Repr

/-- The containment loops of `validateSymbolAddr` (lines 308-323): first
slot whose [Addr, Addr + Length) contains the address, scanning from
index `i`. -/
def findSecIdxAux (addr : Nat) : List DolSection → Nat → Option Nat
  | [], _ => Option.none
  | s :: rest, i =>
    if s.addr ≤ addr ∧ addr < s.addr + s.length then some i
    else findSecIdxAux addr rest (i + 1)

/-- `DOLFile::validateSymbolAddr` (lines 307-329) with the two output
parameters modelled by explicit state passing: `secIn`/`secIdxIn` are the
caller's values of `secOut`/`secIdxOut` before the call, and the result
triple is (return value, `secOut`, `secIdxOut`) after it.  The text loop
writes both outputs, the data loop writes both, the BSS branch
(lines 324-327) writes only the kind, and the failure path writes
neither. -/
def validateSymbolAddr (d : DOLFile) (addr : Nat) (secIn : HanafudaSecType)
    (secIdxIn : Nat) : Bool × HanafudaSecType × Nat :=
  match findSecIdxAux addr d.texts 0 with
  | some i => (false, .Text, i)
  | Option.none =>
    match findSecIdxAux addr d.datas 0 with
    | some i => (false, .Data, i)
    | Option.none =>
      if d.bssAddr ≤ addr ∧ addr < d.bssAddr + d.bssSize then (false, .Bss, secIdxIn)
      else (true, secIn, secIdxIn)

/-- The symbol-injection loop body of `LinkerDriver::link` (lines
735-744): `int secIdx = 0;` and `HanafudaSecType secType;` (the latter
uninitialized, modelled as a parameter); an address failing validation is
skipped, otherwise the installed absolute symbol records the returned
kind and index. -/
def injectSymbol (d : DOLFile) (secTypeInit : HanafudaSecType) (addr : Nat) :
    Option (HanafudaSecType × Nat) :=
  let r := validateSymbolAddr d addr secTypeInit 0
  if r.1 then Option.none else some (r.2.1, r.2.2)

theorem readSlot_unoccupied (buf : List Nat) (o l sz : Nat)
    (h : (readSlot buf o l sz).offset = 0) : readSlot buf o l sz = {} := by
  unfold readSlot at h ⊢
  split at h
  next hne => exact absurd h hne
  next hne => rw [if_neg hne]

theorem construct_unoccupied_empty (buf : List Nat) :
    ∀ s ∈ (construct buf).texts ++ (construct buf).datas, s.offset = 0 → s = ({} : DolSection) := by
  intro s hs h0
  rw [construct_texts, construct_datas] at hs
  simp only [List.mem_append, List.mem_cons, List.not_mem_nil, or_false] at hs
  rcases hs with (rfl | rfl | rfl | rfl | rfl | rfl | rfl) |
    (rfl | rfl | rfl | rfl | rfl | rfl | rfl | rfl | rfl | rfl | rfl) <;>
    exact readSlot_unoccupied buf _ _ _ h0

theorem findSecIdxAux_none (addr : Nat) (secs : List DolSection) (i : Nat)
    (h : ∀ s ∈ secs, ¬(s.addr ≤ addr ∧ addr < s.addr + s.length)) :
    findSecIdxAux addr secs i = Option.none := by
  induction secs generalizing i with
  | nil => rfl
  | cons s rest ih =>
    unfold findSecIdxAux
    rw [if_neg (h s (List.mem_cons_self _ _))]
    exact ih _ (fun t ht => h t (List.mem_cons_of_mem _ ht))

/-- C10: an address inside the BSS region and inside no occupied text or
data slot validates as kind Bss with the section-index output left at
the caller's value (the BSS branch writes only the kind), so every
BSS-classified symbol injected from the symbol list carries section
index 0, the initialization value of `int secIdx = 0;`. -/
theorem c10_bss_index_unmodified (buf : List Nat) (addr : Nat)
    (secTypeInit : HanafudaSecType) (secIdxInit : Nat)
    (hbss : (construct buf).bssAddr ≤ addr ∧
      addr < (construct buf).bssAddr + (construct buf).bssSize)
    (htext : ∀ s ∈ (construct buf).texts, s.offset ≠ 0 →
      ¬(s.addr ≤ addr ∧ addr < s.addr + s.length))
    (hdata : ∀ s ∈ (construct buf).datas, s.offset ≠ 0 →
      ¬(s.addr ≤ addr ∧ addr < s.addr + s.length)) :
    validateSymbolAddr (construct buf) addr secTypeInit secIdxInit =
      (false, .Bss, secIdxInit) ∧
    injectSymbol (construct buf) secTypeInit addr = some (.Bss, 0) := by
  have hall : ∀ idx0 : Nat, validateSymbolAddr (construct buf) addr secTypeInit idx0 =
      (false, .Bss, idx0) := by
    intro idx0
    unfold validateSymbolAddr
    rw [findSecIdxAux_none addr _ 0 ?ht, findSecIdxAux_none addr _ 0 ?hd]
    · rw [if_pos hbss]
    case ht =>
      intro s hs
      by_cases hocc : s.offset = 0
      · rw [construct_unoccupied_empty buf s (List.mem_append_left _ hs) hocc]
        simp
      · exact htext s hs hocc
    case hd =>
      intro s hs
      by_cases hocc : s.offset = 0
      · rw [construct_unoccupied_empty buf s (List.mem_append_right _ hs) hocc]
        simp
      · exact hdata s hs hocc
  refine ⟨hall secIdxInit, ?_⟩
  simp [injectSymbol, hall 0]

/-- A 256-byte DOL buffer with no occupied slots, BSS at
[0x80100000, 0x80101000), and address 0x80100010 inside BSS. -/
def c10buf : List Nat :=
  List.replicate 216 0 ++ [0x80, 0x10, 0, 0] ++ [0, 0, 0x10, 0] ++ List.replicate 32 0

theorem c10_bss_index_unmodified_witness :
    ((construct c10buf).bssAddr ≤ 0x80100010 ∧
      0x80100010 < (construct c10buf).bssAddr + (construct c10buf).bssSize) ∧
    validateSymbolAddr (construct c10buf) 0x80100010 .Text 5 = (false, .Bss, 5) ∧
    injectSymbol (construct c10buf) .Text 0x80100010 = some (.Bss, 0) :=
  ⟨by decide,
   (c10_bss_index_unmodified c10buf 0x80100010 .Text 5 (by decide) (by decide) (by decide)).1,
   (c10_bss_index_unmodified c10buf 0x80100010 .Text 5 (by decide) (by decide) (by decide)).2⟩

/-- The whitespace set of `StringRef::ltrim()`/`rtrim()`:
`" \t\n\v\f\r"`. -/
def isWS (c : Char) : Bool :=
  c = ' ' || c = '\t' || c = '\n' || c = Char.ofNat 11 || c = Char.ofNat 12 || c = '\r'

/-- `StringRef::ltrim()`. -/
def ltrim (s : List Char) : List Char := s.dropWhile isWS

/-- `StringRef::rtrim()`. -/
def rtrim (s : List Char) : List Char := (s.reverse.dropWhile isWS).reverse

/-- `StringRef::split('\n')` (line 390): the part before the first
newline and the part after it; the whole string and an empty remainder
when no newline occurs. -/
def splitNL : List Char → List Char × List Char
  | [] => ([], [])
  | c :: rest =>
    if c = '\n' then ([], rest)
    else
      let r := splitNL rest
      (c :: r.1, r.2)

/-- Modelled from the spec: the host `StringRef` radix auto-sensing used
by `consumeInteger(0, ...)` (the StringRef implementation is host-linker
library code, not part of this repository).  Per the spec the address is
"hex, decimal, or octal (auto-detected)": a `0x`/`0X` prefix is stripped
and selects 16, any other leading `0` selects 8, anything else 10.  No
whitespace is skipped. -/
def getAutoSenseRadix (s : List Char) : Nat × List Char :=
  match s with
  | '0' :: 'x' :: rest => (16, rest)
  | '0' :: 'X' :: rest => (16, rest)
  | '0' :: c :: rest => (8, '0' :: c :: rest)
  | _ => (10, s)

/-- Modelled from the spec: the digit value the host integer parser
assigns to a character (decimal digits, then letters as 10+). -/
def charVal (c : Char) : Option Nat :=
  if '0' ≤ c ∧ c ≤ '9' then some (c.toNat - '0'.toNat)
  else if 'a' ≤ c ∧ c ≤ 'z' then some (c.toNat - 'a'.toNat + 10)
  else if 'A' ≤ c ∧ c ≤ 'Z' then some (c.toNat - 'A'.toNat + 10)
  else Option.none

/-- Modelled from the spec: the host digit-consuming loop — accumulate
characters whose value is below the radix, stop at the first that is
not. -/
def digitLoop (radix : Nat) (acc : Nat) : List Char → Nat × List Char
  | [] => (acc, [])
  | c :: rest =>
    match charVal c with
    | some v => if v < radix then digitLoop radix (acc * radix + v) rest else (acc, c :: rest)
    | Option.none => (acc, c :: rest)

/-- Modelled from the spec: `line.consumeInteger(0, offset)` with
`uint32_t offset` (line 396-397) — auto-sense the radix, fail on an
empty remainder, fail when no character was consumed, fail when the
value does not fit `uint32_t`; otherwise yield the value and the
unconsumed remainder of the line. -/
def consumeInteger32 (s : List Char) : Option (Nat × List Char) :=
  let rs := getAutoSenseRadix s
  if rs.2 = [] then Option.none
  else
    let vr := digitLoop rs.1 0 rs.2
    if vr.2.length = rs.2.length then Option.none
    else if 2 ^ 32 ≤ vr.1 then Option.none
    else some (vr.1, vr.2)

/-- One iteration body of the `SymbolListFile` constructor loop
(lines 395-401): skip the line when integer parsing fails, otherwise trim
the remainder and record (address, name) when the name is non-empty. -/
def processLine (line : List Char) : Option (Nat × List Char) :=
  match consumeInteger32 line with
  | Option.none => Option.none
  | some vr =>
    let name := rtrim (ltrim vr.2)
    if name = [] then Option.none else some (vr.1, name)

/-- The `SymbolListFile` constructor loop (lines 387-403): split off a
line, `ltrim` the REMAINDER (line 393 trims `S`, the rest of the file,
not the current line), parse the current line.  Fuelled structurally:
each iteration strictly shrinks the remainder, so `length + 1` units of
fuel are never exhausted. -/
def symbolListLoop : Nat → List Char → List (Nat × List Char)
  | 0, _ => []
  | _ + 1, [] => []
  | fuel + 1, c :: s0 =>
    let lr := splitNL (c :: s0)
    let s2 := ltrim lr.2
    match consumeInteger32 lr.1 with
    | Option.none => symbolListLoop fuel s2
    | some vr =>
      let name := rtrim (ltrim vr.2)
      if name = [] then symbolListLoop fuel s2
      else (vr.1, name) :: symbolListLoop fuel s2

/-- `SymbolListFile::SymbolListFile` (lines 387-403). -/
def symbolListRecords (s : List Char) : List (Nat × List Char) :=
  symbolListLoop (s.length + 1) s

/-- The sequence of line strings the constructor loop actually parses:
the first is the raw first line of the file; every later one was
produced after the previous iteration's `S.ltrim()`. -/
def effectiveLinesLoop : Nat → List Char → List (List Char)
  | 0, _ => []
  | _ + 1, [] => []
  | fuel + 1, c :: s0 =>
    (splitNL (c :: s0)).1 :: effectiveLinesLoop fuel (ltrim (splitNL (c :: s0)).2)

def effectiveLines (s : List Char) : List (List Char) :=
  effectiveLinesLoop (s.length + 1) s

theorem symbolListLoop_eq_filterMap (fuel : Nat) (s : List Char) :
    symbolListLoop fuel s = (effectiveLinesLoop fuel s).filterMap processLine := by
  induction fuel generalizing s with
  | zero => rfl
  | succ fuel ih =>
    cases s with
    | nil => rfl
    | cons c s0 =>
      rw [symbolListLoop, effectiveLinesLoop, List.filterMap_cons]
      unfold processLine
      cases h : consumeInteger32 (splitNL (c :: s0)).1 with
      | none => simpa [h] using ih _
      | some vr =>
        by_cases hname : rtrim (ltrim vr.2) = []
        · simpa [h, hname] using ih _
        · simpa [h, hname] using ih _

theorem ltrim_head_not_ws (s : List Char) (c : Char) (t : List Char)
    (h : ltrim s = c :: t) : isWS c = false := by
  induction s with
  | nil => simp [ltrim] at h
  | cons c0 rest ih =>
    unfold ltrim at h
    rw [List.dropWhile_cons] at h
    split at h
    · exact ih h
    · next hws =>
      cases h
      simpa using hws

theorem splitNL_cons_not_nl (c : Char) (s0 : List Char) (h : ¬c = '\n') :
    splitNL (c :: s0) = (c :: (splitNL s0).1, (splitNL s0).2) := by
  simp [splitNL, h]

theorem effectiveLinesLoop_ltrim_lines (fuel : Nat) :
    ∀ s : List Char, ∀ l ∈ effectiveLinesLoop fuel (ltrim s), ltrim l = l := by
  induction fuel with
  | zero =>
    intro s l hl
    simp [effectiveLinesLoop] at hl
  | succ fuel ih =>
    intro s l hl
    cases hlt : ltrim s with
    | nil =>
      rw [hlt] at hl
      simp [effectiveLinesLoop] at hl
    | cons c t =>
      rw [hlt] at hl
      have hws := ltrim_head_not_ws s c t hlt
      have hnl : ¬c = '\n' := by
        intro he
        rw [he] at hws
        simp [isWS] at hws
      rw [effectiveLinesLoop, splitNL_cons_not_nl c t hnl] at hl
      rcases List.mem_cons.mp hl with rfl | hmem
      · unfold ltrim
        rw [List.dropWhile_cons]
        simp [hws]
      · exact ih (splitNL t).2 l hmem

/-- C8 (amended): the loader produces, in file order, exactly the records
`processLine` yields on the lines the loop actually parses (skipping
lines whose integer parse fails and lines with an empty trimmed name);
every parsed line after the first has already had its leading whitespace
consumed (by the previous iteration's trimming of the remainder), but a
string still carrying leading whitespace — as the first line of the file
does — always fails integer parsing and is skipped. -/
theorem c8_symbol_list_amended (s : List Char) :
    symbolListRecords s = (effectiveLines s).filterMap processLine ∧
    (∀ l ∈ (effectiveLines s).drop 1, ltrim l = l) ∧
    (∀ l : List Char, consumeInteger32 (' ' :: l) = Option.none) := by
  refine ⟨symbolListLoop_eq_filterMap _ s, ?_, ?_⟩
  · intro l hl
    cases s with
    | nil => simp [effectiveLines, effectiveLinesLoop] at hl
    | cons c s0 =>
      unfold effectiveLines at hl
      simp only [List.length_cons] at hl
      rw [effectiveLinesLoop] at hl
      simp only [List.drop_succ_cons, List.drop_zero] at hl
      exact effectiveLinesLoop_ltrim_lines _ (splitNL (c :: s0)).2 l hl
  · intro l
    simp [consumeInteger32, getAutoSenseRadix, digitLoop, charVal]

/-- C8 counterexample: the claim as stated promises that leading
whitespace before the integer never prevents parsing.  On the first line
of the file it does: the loop trims the *remainder* after each split
(line 393), never the current line, so the file `" 1 a"` — one line with
a leading space, a parseable integer and a non-empty name — produces no
record, while the same line without the space produces exactly one. -/
theorem c8_symbol_list_counterexample :
    symbolListRecords (' ' :: '1' :: ' ' :: 'a' :: []) = [] ∧
    symbolListRecords ('1' :: ' ' :: 'a' :: []) = [(1, ['a'])] := by
  decide

/-- The file `"1 a\n  2 b"`. -/
def c8demo : List Char :=
  '1' :: ' ' :: 'a' :: '\n' :: ' ' :: ' ' :: '2' :: ' ' :: 'b' :: []

theorem c8_symbol_list_amended_witness :
    symbolListRecords c8demo = (effectiveLines c8demo).filterMap processLine ∧
    (∀ l ∈ (effectiveLines c8demo).drop 1, ltrim l = l) ∧
    consumeInteger32 (' ' :: '1' :: []) = Option.none :=
  ⟨(c8_symbol_list_amended c8demo).1, (c8_symbol_list_amended c8demo).2.1,
   (c8_symbol_list_amended c8demo).2.2 ('1' :: [])⟩

end Hanafuda
